import Mathlib

/-!
# Verification of the streaming orchestration and resilient-persistence subsystem

Shallow embedding of `agent/app/services/conversation_service.py` (the
Persistence Gateway) and `agent/app/services/chat_service.py` (Stream
Producer and Delivery Loop), and proofs about the claims of the
specification.

Modelling conventions:

* `uuid4()` is modelled by a `nextId : Nat` counter in the store; freshness
  of UUIDs corresponds to `nextId` not occurring among existing identifiers.
  A UUID is never falsy in Python, so a truthiness test on a captured
  message id is `Option.isSome` in the model.
* Supabase tables are Lean lists of records; an `insert(...).execute()`
  appends a record.  Gateway writes are modelled as succeeding (the claims
  under study do not concern store outages).
* Tool inputs are modelled by their canonical serialization `str(input)`
  as a `String`.  The source's deduplication key
  `f"{tool_name}_{hash(str(input))}"` is modelled by the pair
  `(tool_name, str(input))`: equal (name, input) pairs yield equal keys in
  both, which is the property the deduplication logic relies on.
* CRITICAL source fact: `ConversationService.save_message`
  (conversation_service.py line 58) has signature
  `save_message(self, conversation_id, role, content)` — it has NO
  `message_id` parameter and always inserts a fresh row.  Yet
  `chat_service.py` calls it with a `message_id=` keyword argument at the
  checkpoint site (line 136), the terminal site (line 228) and the error
  path (line 279).  In Python such a call raises
  `TypeError: save_message() got an unexpected keyword argument 'message_id'`
  before the callee body runs.  The embedding models each of those call
  sites as raising an exception (recording the attempted call in a call
  log); the exception then propagates exactly along the `try`/`except`
  structure of `chat_service.py`.
-/

/-- A message row of the `messages` table (conversation_service.py lines 71-78). -/
structure Message where
  id : Nat
  conversation_id : Nat
  role : String
  content : String
deriving Repr, DecidableEq

/-- A tool-call row of the `tool_calls` table (conversation_service.py lines 101-109). -/
structure ToolCallRec where
  id : Nat
  message_id : Nat
  tool_name : String
  input : String
  result : Option String
deriving Repr, DecidableEq

/-- The durable store: `conversations`, `messages` and `tool_calls` tables,
plus the fresh-identifier supply modelling `uuid4()`. -/
structure Store where
  conversations : List Nat
  messages : List Message
  tool_calls : List ToolCallRec
  nextId : Nat
deriving Repr, DecidableEq

/-- `ConversationService.create_conversation` (conversation_service.py lines 31-56):
if no id is supplied, mint a fresh one and insert; if an id is supplied,
look it up, reuse it when found, otherwise insert a row with exactly that id.
Returns the updated store and the conversation id. -/
def create_conversation (s : Store) (conversation_id : Option Nat) : Store × Nat :=
  match conversation_id with
  | none =>
      let cid := s.nextId
      ({ s with conversations := s.conversations ++ [cid], nextId := s.nextId + 1 }, cid)
  | some cid =>
      if s.conversations.contains cid then
        (s, cid)
      else
        ({ s with conversations := s.conversations ++ [cid] }, cid)

/-- `ConversationService.save_message` (conversation_service.py lines 58-79).
The source signature is `save_message(self, conversation_id, role, content)`:
it mints a fresh id with `uuid4()`, inserts a NEW row, and returns the new id.
There is no `message_id` parameter and no update path. -/
def save_message (s : Store) (conversation_id : Nat) (role content : String) :
    Store × Nat :=
  let message_id := s.nextId
  ({ s with
      messages := s.messages ++ [⟨message_id, conversation_id, role, content⟩],
      nextId := s.nextId + 1 }, message_id)

/-- `ConversationService.save_tool_call` (conversation_service.py lines 81-110):
mints a fresh id and inserts a `tool_calls` row. -/
def save_tool_call (s : Store) (message_id : Nat) (tool_name input : String)
    (result : Option String) : Store × Nat :=
  let tool_call_id := s.nextId
  ({ s with
      tool_calls := s.tool_calls ++ [⟨tool_call_id, message_id, tool_name, input, result⟩],
      nextId := s.nextId + 1 }, tool_call_id)

/-- The assistant-role rows of the store. -/
def assistantMessages (s : Store) : List Message :=
  s.messages.filter (fun m => m.role == "assistant")

/-- Engine events: the shapes of `astream_events` items that
`process_agent_stream` inspects (chat_service.py lines 90-223).
`modelStream name content` is an `on_chat_model_stream` event whose chunk
content is `content` (`""` covers a missing chunk or falsy content).
`chainEnd name output` is an `on_chain_end` event; `output = some t` means
the data's output is a dict containing key "output" whose value prints as
`t` (`""` covers a falsy final output), `none` covers every other shape. -/
inductive EngineEvent where
  | modelStream (name : String) (content : String)
  | toolStart (name : String) (input : String)
  | toolEnd (name : String) (output : String)
  | chainEnd (name : String) (output : Option String)
deriving Repr, DecidableEq

/-- Items the Producer pushes onto the Relay Queue (chat_service.py). -/
inductive QueueEvent where
  | content_delta (content : String)
  | tool_call (tool : String) (input : String)
  | tool_result (tool : String) (result : String)
  | done
  | error (message : String)
deriving Repr, DecidableEq

/-- Log entry for each Persistence Gateway call the Producer attempts.
`saveMessageWithId` records a call to `save_message` passing the
`message_id=` keyword argument — a call that raises `TypeError` in the
source, because `ConversationService.save_message` has no such parameter. -/
inductive GatewayCall where
  | saveMessage (conversation_id : Nat) (role content : String)
  | saveMessageWithId (conversation_id : Nat) (role content : String) (message_id : Nat)
  | saveToolCall (message_id : Nat) (tool_name input : String) (result : Option String)
deriving Repr, DecidableEq

/-- An entry of the in-memory `tool_calls_data` list (chat_service.py line 68,
entries appended at line 164). -/
structure ToolCallData where
  tool_name : String
  input : String
  result : Option String
deriving Repr, DecidableEq

/-- The Producer's mutable state during `process_agent_stream`
(chat_service.py lines 74-80), together with the store, the Relay Queue
contents pushed so far, and the log of attempted gateway calls. -/
structure ProducerState where
  full_response : String
  assistant_message_id : Option Nat
  last_save_length : Nat
  saved_tool_call_ids : List (String × String)
  tool_calls_data : List ToolCallData
  store : Store
  queue : List QueueEvent
  calls : List GatewayCall
deriving Repr, DecidableEq

/-- Initial Producer state (chat_service.py lines 68, 76-80). -/
def initState (s0 : Store) : ProducerState :=
  { full_response := "", assistant_message_id := none, last_save_length := 0,
    saved_tool_call_ids := [], tool_calls_data := [], store := s0,
    queue := [], calls := [] }

/-- One iteration of the "save completed, not-yet-saved tool calls" loop
(chat_service.py lines 121-134, 145-158, 243-256): if the entry has a
result and its deduplication key is untracked, insert a ToolCall row and
track the key. -/
def flushOne (mid : Nat) (s : ProducerState) (tc : ToolCallData) : ProducerState :=
  match tc.result with
  | some r =>
      if s.saved_tool_call_ids.contains (tc.tool_name, tc.input) then s
      else
        { s with
            store := (save_tool_call s.store mid tc.tool_name tc.input (some r)).1,
            saved_tool_call_ids := s.saved_tool_call_ids ++ [(tc.tool_name, tc.input)],
            calls := s.calls ++ [GatewayCall.saveToolCall mid tc.tool_name tc.input (some r)] }
  | none => s

/-- The full flush loop over `tool_calls_data` (first-fragment and terminal
save sites). -/
def flushToolCalls (mid : Nat) (s : ProducerState) : ProducerState :=
  s.tool_calls_data.foldl (flushOne mid) s

/-- The flush loop at the `on_tool_end` site (chat_service.py lines 187-202),
which only considers entries whose tool name matches the completed tool. -/
def flushToolCallsNamed (mid : Nat) (tool_name : String) (s : ProducerState) :
    ProducerState :=
  s.tool_calls_data.foldl
    (fun acc tc => if tc.tool_name == tool_name then flushOne mid acc tc else acc) s

/-- The result-pairing loop (chat_service.py lines 182-185): the first entry
with the same tool name and an unresolved result receives the result;
`break` leaves every later entry untouched. -/
def attachResult (tool_name result : String) : List ToolCallData → List ToolCallData
  | [] => []
  | tc :: rest =>
      if tc.tool_name == tool_name && tc.result.isNone then
        { tc with result := some result } :: rest
      else
        tc :: attachResult tool_name result rest

/-- The `TypeError` raised by calling `save_message` with the unexpected
keyword argument `message_id`. -/
def typeErrorMsg : String :=
  "TypeError: save_message() got an unexpected keyword argument message_id"

/-- Outcome of processing one engine event in the `async for` body:
continue, `return` (line 270), or an exception escaping the loop body. -/
inductive StepResult where
  | next (s : ProducerState)
  | finished (s : ProducerState)
  | raised (s : ProducerState) (msg : String)
deriving Repr, DecidableEq

/-- One iteration of the `async for` body of `process_agent_stream`
(chat_service.py lines 90-270), translated branch by branch.  The calls to
`save_message` that pass `message_id=` raise `TypeError`: at the checkpoint
site (line 136) the exception escapes the loop body; at the terminal site
(line 228) it is caught by the inner `except` (line 259), which also skips
the terminal tool-call flush (lines 241-256) in the same `try` block. -/
def step (conv : Nat) (s : ProducerState) (e : EngineEvent) : StepResult :=
  match e with
  | .modelStream name content =>
      if name == "ChatOpenAI" && content != "" then
        let s := { s with full_response := s.full_response ++ content,
                          queue := s.queue ++ [QueueEvent.content_delta content] }
        match s.assistant_message_id with
        | none =>
            let (st, mid) := save_message s.store conv "assistant" s.full_response
            let s := { s with store := st, assistant_message_id := some mid,
                              calls := s.calls ++ [GatewayCall.saveMessage conv "assistant" s.full_response] }
            .next (flushToolCalls mid s)
        | some mid =>
            if (s.full_response.length : Int) - (s.last_save_length : Int) ≥ 100 then
              .raised
                { s with calls := s.calls ++ [GatewayCall.saveMessageWithId conv "assistant" s.full_response mid] }
                typeErrorMsg
            else
              .next s
      else .next s
  | .toolStart name input =>
      .next { s with tool_calls_data := s.tool_calls_data ++ [⟨name, input, none⟩],
                     queue := s.queue ++ [QueueEvent.tool_call name input] }
  | .toolEnd name output =>
      let r := output.take 500
      let s := { s with tool_calls_data := attachResult name r s.tool_calls_data }
      let s :=
        match s.assistant_message_id with
        | some mid => flushToolCallsNamed mid name s
        | none => s
      .next { s with queue := s.queue ++ [QueueEvent.tool_result name r] }
  | .chainEnd name output =>
      if name == "AgentExecutor" then
        match output with
        | some t =>
            if t != "" then
              let s := { s with full_response := t }
              match s.assistant_message_id with
              | some mid =>
                  let s := { s with calls := s.calls ++ [GatewayCall.saveMessageWithId conv "assistant" t mid] }
                  .finished { s with queue := s.queue ++ [QueueEvent.done] }
              | none =>
                  let (st, mid) := save_message s.store conv "assistant" t
                  let s := { s with store := st, assistant_message_id := some mid,
                                    calls := s.calls ++ [GatewayCall.saveMessage conv "assistant" t] }
                  .finished { (flushToolCalls mid s) with
                                queue := (flushToolCalls mid s).queue ++ [QueueEvent.done] }
            else .next s
        | none => .next s
      else .next s

/-- The `except` handler of `process_agent_stream` (chat_service.py lines
272-291): when `full_response` and `assistant_message_id` are both truthy,
attempt the partial save — which passes `message_id=` and therefore raises
`TypeError`, caught by the inner `try` (line 285) and logged, leaving the
store unchanged — then push the `error` event. -/
def handleError (conv : Nat) (s : ProducerState) (msg : String) : ProducerState :=
  let s :=
    match s.assistant_message_id with
    | some mid =>
        if s.full_response != "" then
          { s with calls := s.calls ++ [GatewayCall.saveMessageWithId conv "assistant" s.full_response mid] }
        else s
    | none => s
  { s with queue := s.queue ++ [QueueEvent.error msg] }

/-- Run the Producer over the engine's event sequence.  `failure = some m`
models `astream_events` raising an unrecoverable exception with message `m`
after yielding `evs`; `failure = none` models a cleanly ending stream.  If
the iteration ends without the qualifying terminal event, the task returns
without pushing anything further (chat_service.py line 271). -/
def runProducer (conv : Nat) (s : ProducerState) (evs : List EngineEvent)
    (failure : Option String) : ProducerState :=
  match evs with
  | [] =>
      match failure with
      | none => s
      | some msg => handleError conv s msg
  | e :: rest =>
      match step conv s e with
      | .next s1 => runProducer conv s1 rest failure
      | .finished s1 => s1
      | .raised s1 msg => handleError conv s1 msg

/-- The whole-turn prelude of `stream_chat_response` (chat_service.py lines
47-59): resolve the conversation, persist the user message, then run the
Producer. Returns the final Producer state and the conversation id. -/
def streamChatTurn (s0 : Store) (message : String) (conversation_id : Option Nat)
    (evs : List EngineEvent) (failure : Option String) : ProducerState × Nat :=
  let resolved := create_conversation s0 conversation_id
  let afterUser := save_message resolved.1 resolved.2 "user" message
  (runProducer resolved.2 (initState afterUser.1) evs failure, resolved.2)

/-- Wire frames written by the Delivery Loop. -/
inductive Frame where
  | conversation_id (id : Nat)
  | ev (e : QueueEvent)
deriving Repr, DecidableEq

/-- `done` and `error` are the terminal event kinds. -/
def QueueEvent.isTerminal : QueueEvent → Bool
  | .done => true
  | .error _ => true
  | _ => false

/-- The queue items the Delivery Loop consumes: everything up to and
including the first terminal event, at which it breaks (chat_service.py
lines 321-324); if no terminal item arrives, the whole queue is drained and
the loop exits on a timeout once the Producer task is done (lines 326-329). -/
def takeToTerminal : List QueueEvent → List QueueEvent
  | [] => []
  | e :: rest => if e.isTerminal then [e] else e :: takeToTerminal rest

/-- Frames written when the client stays connected (chat_service.py lines
299-342): the conversation_id frame (line 301), the consumed queue items
(line 315), then the unconditional final completion frame (line 339). -/
def deliveredFrames (conv : Nat) (q : List QueueEvent) : List Frame :=
  Frame.conversation_id conv :: (takeToTerminal q).map Frame.ev ++ [Frame.ev .done]

/-- Frames actually written when the client disconnects after `k` successful
writes: every later write fails and the loop breaks (lines 316-318), so the
delivered sequence is a prefix.  Note `runProducer` takes no client input at
all: disconnection cannot change the Producer or the store. -/
def deliveredFramesDisconnect (conv : Nat) (q : List QueueEvent) (k : Nat) : List Frame :=
  (deliveredFrames conv q).take k

/-- A frame is terminal when it carries a `done` or `error` event. -/
def Frame.isTerminal : Frame → Bool
  | .ev e => e.isTerminal
  | .conversation_id _ => false

/-- The frames written strictly after the first terminal frame. -/
def afterFirstTerminal : List Frame → List Frame
  | [] => []
  | f :: rest => if f.isTerminal then rest else afterFirstTerminal rest

/-- The message identifiers targeted by `save_message` calls that passed the
`message_id=` keyword argument. -/
def updateTargets (l : List GatewayCall) : List Nat :=
  l.filterMap (fun c =>
    match c with
    | GatewayCall.saveMessageWithId _ _ _ mid => some mid
    | _ => none)

/-- Engine events that make the Producer write assistant content: a
qualifying `on_chat_model_stream` delta or a qualifying terminal
`on_chain_end` of the AgentExecutor. -/
def isContentBearing : EngineEvent → Bool
  | .modelStream name content => name == "ChatOpenAI" && content != ""
  | .chainEnd name output =>
      name == "AgentExecutor" &&
        (match output with
         | some t => t != ""
         | none => false)
  | _ => false

/-- The deduplication keys of the persisted ToolCall rows. -/
def toolKeys (s : ProducerState) : List (String × String) :=
  s.store.tool_calls.map (fun r => (r.tool_name, r.input))

/-- The Producer state carried by a step outcome. -/
def StepResult.state : StepResult → ProducerState
  | .next s => s
  | .finished s => s
  | .raised s _ => s

/-- Deduplication invariant: the keys of the persisted ToolCall rows are
exactly the tracked keys, and the tracked keys are pairwise distinct. -/
def DedupInv (s : ProducerState) : Prop :=
  toolKeys s = s.saved_tool_call_ids ∧ s.saved_tool_call_ids.Nodup

/-- Single-assistant-row invariant: before the assistant message id is
captured there is no assistant row and no update-style save was attempted;
afterwards the store has exactly one assistant row, carrying the captured
id, and every update-style save targeted that id. -/
def SingleRowInv (s : ProducerState) : Prop :=
  match s.assistant_message_id with
  | none => assistantMessages s.store = [] ∧ updateTargets s.calls = []
  | some mid =>
      (assistantMessages s.store).map Message.id = [mid] ∧
      ∀ u ∈ updateTargets s.calls, u = mid

/-- C8: conversation resolution (`create_conversation`, conversation_service.py
lines 31-56).  (1) With no identifier, a fresh identifier (one not already in
the table, the `uuid4` freshness assumption) is minted and a conversation with
it is inserted.  (2) With an identifier unknown to the store, a conversation
with exactly that identifier is inserted.  (3) With a known identifier, the
store is unchanged and the identifier is returned. -/
theorem C8_conversation_resolution (s : Store) :
    ((s.conversations.contains s.nextId = false →
        (create_conversation s none).2 = s.nextId ∧
        s.conversations.contains (create_conversation s none).2 = false ∧
        (create_conversation s none).1.conversations
          = s.conversations ++ [(create_conversation s none).2]) ∧
      (∀ cid, s.conversations.contains cid = false →
        (create_conversation s (some cid)).2 = cid ∧
        (create_conversation s (some cid)).1.conversations = s.conversations ++ [cid]) ∧
      (∀ cid, s.conversations.contains cid = true →
        (create_conversation s (some cid)).2 = cid ∧
        (create_conversation s (some cid)).1 = s)) := by
  refine ⟨fun hfresh => ⟨rfl, hfresh, rfl⟩, fun cid hcid => ?_, fun cid hcid => ?_⟩
  · have h : ¬ cid ∈ s.conversations := by simpa using hcid
    simp [create_conversation, h]
  · have h : cid ∈ s.conversations := by simpa using hcid
    simp [create_conversation, h]

/-- Closed witness for `C8_conversation_resolution` at a concrete store. -/
theorem C8_conversation_resolution_witness :
    (create_conversation ⟨[5], [], [], 9⟩ none).2 = 9 ∧
    (create_conversation ⟨[5], [], [], 9⟩ (some 3)).1.conversations = [5, 3] ∧
    (create_conversation ⟨[5], [], [], 9⟩ (some 5)).1 = ⟨[5], [], [], 9⟩ := by
  refine ⟨(C8_conversation_resolution ⟨[5], [], [], 9⟩).1 (by decide) |>.1, ?_, ?_⟩
  · exact ((C8_conversation_resolution ⟨[5], [], [], 9⟩).2.1 3 (by decide)).2
  · exact ((C8_conversation_resolution ⟨[5], [], [], 9⟩).2.2 5 (by decide)).2

/-- `save_message` appends exactly one row. -/
@[simp] theorem save_message_messages (s : Store) (c : Nat) (r t : String) :
    (save_message s c r t).1.messages = s.messages ++ [⟨s.nextId, c, r, t⟩] := rfl

@[simp] theorem save_message_tool_calls (s : Store) (c : Nat) (r t : String) :
    (save_message s c r t).1.tool_calls = s.tool_calls := rfl

@[simp] theorem save_message_ret (s : Store) (c : Nat) (r t : String) :
    (save_message s c r t).2 = s.nextId := rfl

/-- `save_tool_call` leaves the `messages` table alone. -/
@[simp] theorem save_tool_call_messages (s : Store) (m : Nat) (n i : String) (r : Option String) :
    (save_tool_call s m n i r).1.messages = s.messages := rfl

@[simp] theorem save_tool_call_tool_calls (s : Store) (m : Nat) (n i : String) (r : Option String) :
    (save_tool_call s m n i r).1.tool_calls = s.tool_calls ++ [⟨s.nextId, m, n, i, r⟩] := rfl

@[simp] theorem updateTargets_nil : updateTargets [] = [] := rfl

@[simp] theorem updateTargets_append (l₁ l₂ : List GatewayCall) :
    updateTargets (l₁ ++ l₂) = updateTargets l₁ ++ updateTargets l₂ :=
  List.filterMap_append l₁ l₂ _

@[simp] theorem updateTargets_saveMessage (c : Nat) (r t : String) :
    updateTargets [GatewayCall.saveMessage c r t] = [] := rfl

@[simp] theorem updateTargets_saveMessageWithId (c : Nat) (r t : String) (m : Nat) :
    updateTargets [GatewayCall.saveMessageWithId c r t m] = [m] := rfl

@[simp] theorem updateTargets_saveToolCall (m : Nat) (n i : String) (r : Option String) :
    updateTargets [GatewayCall.saveToolCall m n i r] = [] := rfl

@[simp] theorem state_next (s : ProducerState) : (StepResult.next s).state = s := rfl

@[simp] theorem state_finished (s : ProducerState) : (StepResult.finished s).state = s := rfl

@[simp] theorem state_raised (s : ProducerState) (m : String) :
    (StepResult.raised s m).state = s := rfl

/-- A predicate preserved by every iteration of a fold is preserved by the fold. -/
theorem foldl_preserve {α β : Type} (P : α → Prop) (f : α → β → α)
    (h : ∀ a b, P a → P (f a b)) : ∀ (l : List β) (a : α), P a → P (l.foldl f a) := by
  intro l
  induction l with
  | nil => intro a ha; exact ha
  | cons b t ih => intro a ha; exact ih _ (h a b ha)

/-- `flushOne` only touches the ToolCall table, the tracked-key set, and
the call log (with a `saveToolCall` entry). -/
theorem flushOne_fields (mid : Nat) (s : ProducerState) (tc : ToolCallData) :
    (flushOne mid s tc).store.messages = s.store.messages ∧
    (flushOne mid s tc).assistant_message_id = s.assistant_message_id ∧
    (flushOne mid s tc).full_response = s.full_response ∧
    (flushOne mid s tc).queue = s.queue ∧
    (flushOne mid s tc).tool_calls_data = s.tool_calls_data ∧
    updateTargets (flushOne mid s tc).calls = updateTargets s.calls := by
  rcases tc with ⟨n, i, r⟩
  cases r with
  | none => simp [flushOne]
  | some v =>
      by_cases hmem : (n, i) ∈ s.saved_tool_call_ids
      · simp [flushOne, hmem]
      · simp [flushOne, hmem]

/-- `flushOne` preserves the deduplication invariant. -/
theorem flushOne_dedup (mid : Nat) (s : ProducerState) (tc : ToolCallData)
    (h : DedupInv s) : DedupInv (flushOne mid s tc) := by
  rcases tc with ⟨n, i, r⟩
  obtain ⟨hkeys, hnd⟩ := h
  cases r with
  | none => exact ⟨hkeys, hnd⟩
  | some v =>
      by_cases hmem : (n, i) ∈ s.saved_tool_call_ids
      · have heq : flushOne mid s ⟨n, i, some v⟩ = s := by
          simp [flushOne, hmem]
        rw [heq]
        exact ⟨hkeys, hnd⟩
      · constructor
        · simp only [toolKeys] at hkeys ⊢
          simp [flushOne, hmem, hkeys]
        · simp [flushOne, hmem, List.nodup_append, hnd]

/-- The full flush loop preserves the deduplication invariant. -/
theorem flushToolCalls_dedup (mid : Nat) (s : ProducerState) (h : DedupInv s) :
    DedupInv (flushToolCalls mid s) :=
  foldl_preserve DedupInv (flushOne mid) (fun a b => flushOne_dedup mid a b)
    s.tool_calls_data s h

/-- One iteration of the name-filtered flush preserves the deduplication
invariant. -/
theorem flushOneNamed_dedup (mid : Nat) (nm : String) (a : ProducerState)
    (b : ToolCallData) (ha : DedupInv a) :
    DedupInv (if (b.tool_name == nm) = true then flushOne mid a b else a) := by
  by_cases hb : (b.tool_name == nm) = true
  · rw [if_pos hb]; exact flushOne_dedup mid a b ha
  · rw [if_neg hb]; exact ha

/-- The name-filtered flush loop preserves the deduplication invariant. -/
theorem flushToolCallsNamed_dedup (mid : Nat) (nm : String) (s : ProducerState)
    (h : DedupInv s) : DedupInv (flushToolCallsNamed mid nm s) := by
  unfold flushToolCallsNamed
  exact foldl_preserve DedupInv _
    (fun a b ha => flushOneNamed_dedup mid nm a b ha) s.tool_calls_data s h

/-- The flush loops leave everything but the ToolCall table, the tracked
keys and the `saveToolCall` log entries unchanged. -/
theorem flushToolCalls_fields (mid : Nat) (s : ProducerState) :
    (flushToolCalls mid s).store.messages = s.store.messages ∧
    (flushToolCalls mid s).assistant_message_id = s.assistant_message_id ∧
    (flushToolCalls mid s).full_response = s.full_response ∧
    (flushToolCalls mid s).queue = s.queue ∧
    updateTargets (flushToolCalls mid s).calls = updateTargets s.calls :=
  foldl_preserve
    (fun x => x.store.messages = s.store.messages ∧
      x.assistant_message_id = s.assistant_message_id ∧
      x.full_response = s.full_response ∧ x.queue = s.queue ∧
      updateTargets x.calls = updateTargets s.calls)
    (flushOne mid)
    (fun a b hab => by
      obtain ⟨h1, h2, h3, h4, h5⟩ := hab
      obtain ⟨g1, g2, g3, g4, _, g6⟩ := flushOne_fields mid a b
      exact ⟨g1.trans h1, g2.trans h2, g3.trans h3, g4.trans h4, g6.trans h5⟩)
    s.tool_calls_data s ⟨rfl, rfl, rfl, rfl, rfl⟩

/-- One iteration of the name-filtered flush leaves the fields tracked by
`flushOne_fields` unchanged. -/
theorem flushOneNamed_fields (mid : Nat) (nm : String) (a : ProducerState)
    (b : ToolCallData) :
    (if (b.tool_name == nm) = true then flushOne mid a b else a).store.messages
        = a.store.messages ∧
    (if (b.tool_name == nm) = true then flushOne mid a b else a).assistant_message_id
        = a.assistant_message_id ∧
    (if (b.tool_name == nm) = true then flushOne mid a b else a).full_response
        = a.full_response ∧
    (if (b.tool_name == nm) = true then flushOne mid a b else a).queue = a.queue ∧
    updateTargets (if (b.tool_name == nm) = true then flushOne mid a b else a).calls
        = updateTargets a.calls := by
  by_cases hb : (b.tool_name == nm) = true
  · rw [if_pos hb]
    obtain ⟨g1, g2, g3, g4, _, g6⟩ := flushOne_fields mid a b
    exact ⟨g1, g2, g3, g4, g6⟩
  · rw [if_neg hb]; exact ⟨rfl, rfl, rfl, rfl, rfl⟩

/-- Field preservation for the name-filtered flush loop. -/
theorem flushToolCallsNamed_fields (mid : Nat) (nm : String) (s : ProducerState) :
    (flushToolCallsNamed mid nm s).store.messages = s.store.messages ∧
    (flushToolCallsNamed mid nm s).assistant_message_id = s.assistant_message_id ∧
    (flushToolCallsNamed mid nm s).full_response = s.full_response ∧
    (flushToolCallsNamed mid nm s).queue = s.queue ∧
    updateTargets (flushToolCallsNamed mid nm s).calls = updateTargets s.calls := by
  unfold flushToolCallsNamed
  exact foldl_preserve
    (fun x => x.store.messages = s.store.messages ∧
      x.assistant_message_id = s.assistant_message_id ∧
      x.full_response = s.full_response ∧ x.queue = s.queue ∧
      updateTargets x.calls = updateTargets s.calls)
    _
    (fun a b hab => by
      obtain ⟨h1, h2, h3, h4, h5⟩ := hab
      obtain ⟨g1, g2, g3, g4, g5⟩ := flushOneNamed_fields mid nm a b
      exact ⟨g1.trans h1, g2.trans h2, g3.trans h3, g4.trans h4, g5.trans h5⟩)
    s.tool_calls_data s ⟨rfl, rfl, rfl, rfl, rfl⟩

/-- The error handler only appends to the call log and the queue. -/
theorem handleError_fields (conv : Nat) (s : ProducerState) (m : String) :
    (handleError conv s m).store = s.store ∧
    (handleError conv s m).assistant_message_id = s.assistant_message_id ∧
    (handleError conv s m).saved_tool_call_ids = s.saved_tool_call_ids := by
  unfold handleError
  rcases hid : s.assistant_message_id with _ | mid
  · simp [hid]
  · by_cases hf : (s.full_response != "") = true
    · simp [hid, hf]
    · simp [hid, hf]

/-- The error handler preserves the deduplication invariant. -/
theorem handleError_dedup (conv : Nat) (s : ProducerState) (m : String)
    (h : DedupInv s) : DedupInv (handleError conv s m) := by
  obtain ⟨h1, _, h3⟩ := handleError_fields conv s m
  constructor
  · show toolKeys _ = _
    unfold toolKeys
    rw [h1, h3]
    exact h.1
  · rw [h3]; exact h.2

theorem dedupInv_of_eq {s t : ProducerState} (h : DedupInv s)
    (h1 : t.store.tool_calls = s.store.tool_calls)
    (h2 : t.saved_tool_call_ids = s.saved_tool_call_ids) : DedupInv t := by
  constructor
  · show toolKeys t = t.saved_tool_call_ids
    unfold toolKeys
    rw [h1, h2]
    exact h.1
  · rw [h2]; exact h.2

theorem step_dedup (conv : Nat) (s : ProducerState) (e : EngineEvent)
    (h : DedupInv s) : DedupInv ((step conv s e).state) := by
  cases e with
  | modelStream name content =>
      by_cases hq : (name == "ChatOpenAI" && content != "") = true
      · rcases hid : s.assistant_message_id with _ | mid
        · simp only [step, hq, hid, if_true, state_next]
          apply flushToolCalls_dedup
          exact dedupInv_of_eq h rfl rfl
        · simp only [step, hq, hid, if_true, state_next]
          split
          · simp only [state_raised]
            exact dedupInv_of_eq h rfl rfl
          · simp only [state_next]
            exact dedupInv_of_eq h rfl rfl
      · simp only [step, hq]
        simp only [Bool.not_eq_true] at hq
        simp only [hq, Bool.false_eq_true, if_false, state_next]
        exact h
  | toolStart name input =>
      simp only [step, state_next]
      exact dedupInv_of_eq h rfl rfl
  | toolEnd name output =>
      rcases hid : s.assistant_message_id with _ | mid
      · simp only [step, hid, state_next]
        exact dedupInv_of_eq h rfl rfl
      · simp only [step, hid, state_next]
        have h1 : DedupInv (flushToolCallsNamed mid name
            { s with assistant_message_id := some mid,
                     tool_calls_data := attachResult name (output.take 500) s.tool_calls_data }) :=
          flushToolCallsNamed_dedup mid name _ (dedupInv_of_eq h rfl rfl)
        exact dedupInv_of_eq h1 rfl rfl
  | chainEnd name output =>
      by_cases hn : (name == "AgentExecutor") = true
      · rcases output with _ | t
        · simp only [step, hn, if_true, state_next]
          exact h
        · by_cases ht : (t != "") = true
          · rcases hid : s.assistant_message_id with _ | mid
            · simp only [step, hn, ht, hid, if_true, state_finished]
              have h1 : DedupInv (flushToolCalls (save_message s.store conv "assistant" t).2
                  { s with full_response := t,
                           assistant_message_id := some (save_message s.store conv "assistant" t).2,
                           store := (save_message s.store conv "assistant" t).1,
                           calls := s.calls ++ [GatewayCall.saveMessage conv "assistant" t] }) :=
                flushToolCalls_dedup _ _ (dedupInv_of_eq h rfl rfl)
              exact dedupInv_of_eq h1 rfl rfl
            · simp only [step, hn, ht, hid, if_true, state_finished]
              exact dedupInv_of_eq h rfl rfl
          · simp only [step, hn, if_true]
            simp only [Bool.not_eq_true] at ht
            simp only [ht, Bool.false_eq_true, if_false, state_next]
            exact h
      · simp only [step, hn]
        simp only [Bool.not_eq_true] at hn
        simp only [hn, Bool.false_eq_true, if_false, state_next]
        exact h

/-- Unfolding equation: empty stream, clean end. -/
theorem runProducer_nil_none (conv : Nat) (s : ProducerState) :
    runProducer conv s [] none = s := rfl

/-- Unfolding equation: empty stream, engine failure. -/
theorem runProducer_nil_some (conv : Nat) (s : ProducerState) (m : String) :
    runProducer conv s [] (some m) = handleError conv s m := rfl

/-- Unfolding equation: one event followed by the rest of the stream. -/
theorem runProducer_cons (conv : Nat) (s : ProducerState) (e : EngineEvent)
    (rest : List EngineEvent) (failure : Option String) :
    runProducer conv s (e :: rest) failure =
      match step conv s e with
      | .next s1 => runProducer conv s1 rest failure
      | .finished s1 => s1
      | .raised s1 msg => handleError conv s1 msg := rfl

/-- The Producer's event loop preserves the deduplication invariant,
including the error handler run on an engine failure. -/
theorem runProducer_dedup (conv : Nat) :
    ∀ (evs : List EngineEvent) (failure : Option String) (s : ProducerState),
      DedupInv s → DedupInv (runProducer conv s evs failure) := by
  intro evs
  induction evs with
  | nil =>
      intro failure s h
      cases failure with
      | none => exact h
      | some m => exact handleError_dedup conv s m h
  | cons e rest ih =>
      intro failure s h
      have hs := step_dedup conv s e h
      rw [runProducer_cons]
      cases hstep : step conv s e with
      | next s1 =>
          rw [hstep, state_next] at hs
          exact ih failure s1 hs
      | finished s1 =>
          rw [hstep, state_finished] at hs
          exact hs
      | raised s1 m =>
          rw [hstep, state_raised] at hs
          exact handleError_dedup conv s1 m hs

/-- C4: within one turn, at most one ToolCall record is persisted per
distinct (tool name, input) pair, no matter how often the event stream
reports a completed invocation with that pair and no matter at which save
site the saves are attempted: the persisted rows' (tool name, input) keys
are pairwise distinct at the end of any run of `process_agent_stream`
(over any engine event sequence, with or without an engine failure). -/
theorem C4_tool_call_dedup (conv : Nat) (s0 : Store) (evs : List EngineEvent)
    (failure : Option String) (h0 : s0.tool_calls = []) :
    ((runProducer conv (initState s0) evs failure).store.tool_calls.map
        (fun r => (r.tool_name, r.input))).Nodup := by
  have hinv : DedupInv (initState s0) := by
    constructor
    · show toolKeys _ = _
      simp [toolKeys, initState, h0]
    · simp [initState]
  have hfin := runProducer_dedup conv evs failure (initState s0) hinv
  have hkeys := hfin.1
  unfold toolKeys at hkeys
  rw [hkeys]
  exact hfin.2

/-- Closed witness for `C4_tool_call_dedup`: a turn whose stream reports the
same completed (tool, input) pair twice, across the on-tool-end site, the
first-fragment site and the terminal flush. -/
theorem C4_tool_call_dedup_witness :
    (⟨[], [], [], 0⟩ : Store).tool_calls = [] ∧
    ((runProducer 0 (initState ⟨[], [], [], 0⟩)
        [EngineEvent.toolStart "search" "q1", EngineEvent.toolEnd "search" "r1",
         EngineEvent.modelStream "ChatOpenAI" "ok",
         EngineEvent.toolStart "search" "q1", EngineEvent.toolEnd "search" "r1",
         EngineEvent.chainEnd "AgentExecutor" (some "ans")] none).store.tool_calls.map
        (fun r => (r.tool_name, r.input))).Nodup :=
  ⟨rfl, C4_tool_call_dedup 0 ⟨[], [], [], 0⟩
    [EngineEvent.toolStart "search" "q1", EngineEvent.toolEnd "search" "r1",
     EngineEvent.modelStream "ChatOpenAI" "ok",
     EngineEvent.toolStart "search" "q1", EngineEvent.toolEnd "search" "r1",
     EngineEvent.chainEnd "AgentExecutor" (some "ans")] none rfl⟩

/-- `SingleRowInv` only depends on the message table, the captured id and
the update-call targets. -/
theorem singleRowInv_of_eq {s t : ProducerState} (h : SingleRowInv s)
    (h1 : t.store.messages = s.store.messages)
    (h2 : t.assistant_message_id = s.assistant_message_id)
    (h3 : updateTargets t.calls = updateTargets s.calls) : SingleRowInv t := by
  unfold SingleRowInv at h ⊢
  have hmsg : assistantMessages t.store = assistantMessages s.store := by
    unfold assistantMessages; rw [h1]
  rw [h2]
  cases hid : s.assistant_message_id with
  | none =>
      rw [hid] at h
      exact ⟨by rw [hmsg]; exact h.1, by rw [h3]; exact h.2⟩
  | some mid =>
      rw [hid] at h
      exact ⟨by rw [hmsg]; exact h.1, by
        intro u hu
        rw [h3] at hu
        exact h.2 u hu⟩

/-- Each loop iteration of the Producer preserves the single-row invariant. -/
theorem step_singleRow (conv : Nat) (s : ProducerState) (e : EngineEvent)
    (h : SingleRowInv s) : SingleRowInv ((step conv s e).state) := by
  cases e with
  | modelStream name content =>
      by_cases hq : (name == "ChatOpenAI" && content != "") = true
      · rcases hid : s.assistant_message_id with _ | mid
        · simp only [step, hq, hid, if_true, state_next]
          have hnone : assistantMessages s.store = [] ∧ updateTargets s.calls = [] := by
            unfold SingleRowInv at h; rw [hid] at h; exact h
          have hmid : SingleRowInv
              { s with full_response := s.full_response ++ content,
                       assistant_message_id :=
                         some (save_message s.store conv "assistant" (s.full_response ++ content)).2,
                       store := (save_message s.store conv "assistant" (s.full_response ++ content)).1,
                       queue := s.queue ++ [QueueEvent.content_delta content],
                       calls := s.calls ++ [GatewayCall.saveMessage conv "assistant" (s.full_response ++ content)] } := by
            unfold SingleRowInv
            constructor
            · show (assistantMessages (save_message s.store conv "assistant" (s.full_response ++ content)).1).map Message.id = _
              unfold assistantMessages
              rw [save_message_messages, List.filter_append]
              have : assistantMessages s.store = [] := hnone.1
              unfold assistantMessages at this
              rw [this]
              simp
            · intro u hu
              simp only [updateTargets_append, updateTargets_saveMessage, List.append_nil] at hu
              rw [hnone.2] at hu
              cases hu
          obtain ⟨g1, g2, g3, g4, g5⟩ := flushToolCalls_fields
            (save_message s.store conv "assistant" (s.full_response ++ content)).2
            { s with full_response := s.full_response ++ content,
                     assistant_message_id :=
                       some (save_message s.store conv "assistant" (s.full_response ++ content)).2,
                     store := (save_message s.store conv "assistant" (s.full_response ++ content)).1,
                     queue := s.queue ++ [QueueEvent.content_delta content],
                     calls := s.calls ++ [GatewayCall.saveMessage conv "assistant" (s.full_response ++ content)] }
          exact singleRowInv_of_eq hmid g1 g2 g5
        · simp only [step, hq, hid, if_true, state_next]
          have hsome : (assistantMessages s.store).map Message.id = [mid] ∧
              ∀ u ∈ updateTargets s.calls, u = mid := by
            unfold SingleRowInv at h; rw [hid] at h; exact h
          split
          · simp only [state_raised]
            unfold SingleRowInv
            constructor
            · exact hsome.1
            · intro u hu
              simp only [updateTargets_append, updateTargets_saveMessageWithId] at hu
              rcases List.mem_append.mp hu with h1 | h1
              · exact hsome.2 u h1
              · simpa using h1
          · simp only [state_next]
            exact singleRowInv_of_eq h rfl hid.symm rfl
      · simp only [step, hq]
        simp only [Bool.not_eq_true] at hq
        simp only [hq, Bool.false_eq_true, if_false, state_next]
        exact h
  | toolStart name input =>
      simp only [step, state_next]
      exact singleRowInv_of_eq h rfl rfl rfl
  | toolEnd name output =>
      rcases hid : s.assistant_message_id with _ | mid
      · simp only [step, hid, state_next]
        exact singleRowInv_of_eq h rfl hid.symm rfl
      · simp only [step, hid, state_next]
        have h1 : SingleRowInv
            { s with assistant_message_id := some mid,
                     tool_calls_data := attachResult name (output.take 500) s.tool_calls_data } := by
          refine singleRowInv_of_eq h rfl ?_ rfl
          exact hid.symm
        obtain ⟨g1, g2, g3, g4, g5⟩ := flushToolCallsNamed_fields mid name
          { s with assistant_message_id := some mid,
                   tool_calls_data := attachResult name (output.take 500) s.tool_calls_data }
        have h2 : SingleRowInv (flushToolCallsNamed mid name
            { s with assistant_message_id := some mid,
                     tool_calls_data := attachResult name (output.take 500) s.tool_calls_data }) :=
          singleRowInv_of_eq h1 g1 g2 g5
        exact singleRowInv_of_eq h2 rfl rfl rfl
  | chainEnd name output =>
      by_cases hn : (name == "AgentExecutor") = true
      · rcases output with _ | t
        · simp only [step, hn, if_true, state_next]
          exact h
        · by_cases ht : (t != "") = true
          · rcases hid : s.assistant_message_id with _ | mid
            · simp only [step, hn, ht, hid, if_true, state_finished]
              have hnone : assistantMessages s.store = [] ∧ updateTargets s.calls = [] := by
                unfold SingleRowInv at h; rw [hid] at h; exact h
              have hmid : SingleRowInv
                  { s with full_response := t,
                           assistant_message_id := some (save_message s.store conv "assistant" t).2,
                           store := (save_message s.store conv "assistant" t).1,
                           calls := s.calls ++ [GatewayCall.saveMessage conv "assistant" t] } := by
                unfold SingleRowInv
                constructor
                · show (assistantMessages (save_message s.store conv "assistant" t).1).map Message.id = _
                  unfold assistantMessages
                  rw [save_message_messages, List.filter_append]
                  have hA : assistantMessages s.store = [] := hnone.1
                  unfold assistantMessages at hA
                  rw [hA]
                  simp
                · intro u hu
                  simp only [updateTargets_append, updateTargets_saveMessage, List.append_nil] at hu
                  rw [hnone.2] at hu
                  cases hu
              obtain ⟨g1, g2, g3, g4, g5⟩ := flushToolCalls_fields
                (save_message s.store conv "assistant" t).2
                { s with full_response := t,
                         assistant_message_id := some (save_message s.store conv "assistant" t).2,
                         store := (save_message s.store conv "assistant" t).1,
                         calls := s.calls ++ [GatewayCall.saveMessage conv "assistant" t] }
              have h2 : SingleRowInv (flushToolCalls
                  (save_message s.store conv "assistant" t).2
                  { s with full_response := t,
                           assistant_message_id := some (save_message s.store conv "assistant" t).2,
                           store := (save_message s.store conv "assistant" t).1,
                           calls := s.calls ++ [GatewayCall.saveMessage conv "assistant" t] }) :=
                singleRowInv_of_eq hmid g1 g2 g5
              exact singleRowInv_of_eq h2 rfl rfl rfl
            · simp only [step, hn, ht, hid, if_true, state_finished]
              have hsome : (assistantMessages s.store).map Message.id = [mid] ∧
                  ∀ u ∈ updateTargets s.calls, u = mid := by
                unfold SingleRowInv at h; rw [hid] at h; exact h
              unfold SingleRowInv
              constructor
              · exact hsome.1
              · intro u hu
                simp only [updateTargets_append, updateTargets_saveMessageWithId] at hu
                rcases List.mem_append.mp hu with h1 | h1
                · exact hsome.2 u h1
                · simpa using h1
          · simp only [step, hn, if_true]
            simp only [Bool.not_eq_true] at ht
            simp only [ht, Bool.false_eq_true, if_false, state_next]
            exact h
      · simp only [step, hn]
        simp only [Bool.not_eq_true] at hn
        simp only [hn, Bool.false_eq_true, if_false, state_next]
        exact h

/-- Appending an update-style save that targets the captured id preserves
the single-row invariant. -/
theorem singleRowInv_append_target {s t : ProducerState} {mid : Nat}
    (h : SingleRowInv s) (hid : s.assistant_message_id = some mid)
    (h1 : t.store.messages = s.store.messages)
    (h2 : t.assistant_message_id = s.assistant_message_id)
    (h3 : updateTargets t.calls = updateTargets s.calls ++ [mid]) :
    SingleRowInv t := by
  unfold SingleRowInv at h ⊢
  have hmsg : assistantMessages t.store = assistantMessages s.store := by
    unfold assistantMessages; rw [h1]
  rw [h2, hid]
  rw [hid] at h
  refine ⟨by rw [hmsg]; exact h.1, ?_⟩
  intro u hu
  rw [h3] at hu
  rcases List.mem_append.mp hu with h4 | h4
  · exact h.2 u h4
  · simpa using h4

/-- The error handler preserves the single-row invariant: when it attempts
the partial save, it targets the already-captured id. -/
theorem handleError_singleRow (conv : Nat) (s : ProducerState) (m : String)
    (h : SingleRowInv s) : SingleRowInv (handleError conv s m) := by
  unfold handleError
  rcases hid : s.assistant_message_id with _ | mid
  · simp only [hid]
    exact singleRowInv_of_eq h rfl hid.symm rfl
  · simp only [hid]
    by_cases hf : (s.full_response != "") = true
    · simp only [hf, if_true]
      exact singleRowInv_append_target h hid rfl hid.symm (by simp)
    · simp only [Bool.not_eq_true] at hf
      simp only [hf, Bool.false_eq_true, if_false]
      exact singleRowInv_of_eq h rfl rfl rfl

/-- The Producer's event loop preserves the single-row invariant. -/
theorem runProducer_singleRow (conv : Nat) :
    ∀ (evs : List EngineEvent) (failure : Option String) (s : ProducerState),
      SingleRowInv s → SingleRowInv (runProducer conv s evs failure) := by
  intro evs
  induction evs with
  | nil =>
      intro failure s h
      cases failure with
      | none => exact h
      | some m => exact handleError_singleRow conv s m h
  | cons e rest ih =>
      intro failure s h
      have hs := step_singleRow conv s e h
      rw [runProducer_cons]
      cases hstep : step conv s e with
      | next s1 =>
          rw [hstep, state_next] at hs
          exact ih failure s1 hs
      | finished s1 =>
          rw [hstep, state_finished] at hs
          exact hs
      | raised s1 m =>
          rw [hstep, state_raised] at hs
          exact handleError_singleRow conv s1 m hs

/-- C3: per turn there is at most one assistant Message row; when an
identifier was captured, the store's unique assistant row carries exactly
that identifier and every update-style save call (the checkpoint, terminal
and error-path calls passing `message_id=`) targeted that same identifier;
when no identifier was captured, no assistant row exists at all. -/
theorem C3_single_assistant_row (s0 : Store) (message : String)
    (conversation_id : Option Nat) (evs : List EngineEvent)
    (failure : Option String) (h0 : assistantMessages s0 = []) :
    (assistantMessages (streamChatTurn s0 message conversation_id evs failure).1.store).length ≤ 1 ∧
    (∀ mid,
      (streamChatTurn s0 message conversation_id evs failure).1.assistant_message_id = some mid →
      (assistantMessages (streamChatTurn s0 message conversation_id evs failure).1.store).map
          Message.id = [mid] ∧
      ∀ u ∈ updateTargets (streamChatTurn s0 message conversation_id evs failure).1.calls,
        u = mid) ∧
    ((streamChatTurn s0 message conversation_id evs failure).1.assistant_message_id = none →
      assistantMessages (streamChatTurn s0 message conversation_id evs failure).1.store = []) := by
  have hconv : (create_conversation s0 conversation_id).1.messages = s0.messages := by
    rcases conversation_id with _ | cid
    · rfl
    · unfold create_conversation
      by_cases hc : cid ∈ s0.conversations
      · simp [hc]
      · simp [hc]
  have hpre : SingleRowInv (initState
      (save_message (create_conversation s0 conversation_id).1
        (create_conversation s0 conversation_id).2 "user" message).1) := by
    unfold SingleRowInv
    constructor
    · show assistantMessages _ = []
      unfold assistantMessages at h0 ⊢
      simp only [initState]
      rw [save_message_messages, hconv, List.filter_append, h0]
      simp
    · rfl
  have hfin := runProducer_singleRow (create_conversation s0 conversation_id).2 evs failure _ hpre
  simp only [streamChatTurn] at *
  unfold SingleRowInv at hfin
  refine ⟨?_, ?_, ?_⟩
  · rcases hid : (runProducer (create_conversation s0 conversation_id).2
        (initState (save_message (create_conversation s0 conversation_id).1
          (create_conversation s0 conversation_id).2 "user" message).1) evs
        failure).assistant_message_id with _ | mid
    · simp only [hid] at hfin
      rw [hfin.1]
      decide
    · simp only [hid] at hfin
      have := congrArg List.length hfin.1
      simp at this
      omega
  · intro mid hmid
    simp only [hmid] at hfin
    exact hfin
  · intro hmid
    simp only [hmid] at hfin
    exact hfin.1

/-- Closed witness for `C3_single_assistant_row` at a concrete turn. -/
theorem C3_single_assistant_row_witness :
    assistantMessages (⟨[], [], [], 0⟩ : Store) = [] ∧
    (assistantMessages (streamChatTurn ⟨[], [], [], 0⟩ "hi" none
        [EngineEvent.modelStream "ChatOpenAI" "Hey",
         EngineEvent.chainEnd "AgentExecutor" (some "Hey there")] none).1.store).length ≤ 1 :=
  ⟨rfl, (C3_single_assistant_row ⟨[], [], [], 0⟩ "hi" none
    [EngineEvent.modelStream "ChatOpenAI" "Hey",
     EngineEvent.chainEnd "AgentExecutor" (some "Hey there")] none rfl).1⟩

/-- C9: the pairing loop attaches a tool result to the first (oldest)
recorded invocation with the same tool name whose result is unresolved, and
to no other entry; when no entry qualifies, the list is unchanged. -/
theorem C9_first_unresolved_match (tool_name result : String) :
    ∀ l : List ToolCallData,
      ((∀ tc ∈ l, ¬(tc.tool_name = tool_name ∧ tc.result = none)) ∧
        attachResult tool_name result l = l) ∨
      (∃ l1 tc l2, l = l1 ++ tc :: l2 ∧
        (∀ tc2 ∈ l1, ¬(tc2.tool_name = tool_name ∧ tc2.result = none)) ∧
        tc.tool_name = tool_name ∧ tc.result = none ∧
        attachResult tool_name result l
          = l1 ++ { tc with result := some result } :: l2) := by
  intro l
  induction l with
  | nil => exact Or.inl ⟨fun tc htc => absurd htc (List.not_mem_nil tc), rfl⟩
  | cons tc rest ih =>
      by_cases hm : tc.tool_name = tool_name ∧ tc.result = none
      · have hcond : (tc.tool_name == tool_name && tc.result.isNone) = true := by
          simp [hm.1, hm.2]
        apply Or.inr
        refine ⟨[], tc, rest, rfl, ?_, hm.1, hm.2, ?_⟩
        · intro tc2 h2
          exact absurd h2 (List.not_mem_nil tc2)
        · simp [attachResult, hcond]
      · have hcond : (tc.tool_name == tool_name && tc.result.isNone) = false := by
          by_cases h1 : tc.tool_name = tool_name
          · rcases hres : tc.result with _ | v
            · exact absurd ⟨h1, hres⟩ hm
            · simp [hres]
          · have hb : (tc.tool_name == tool_name) = false := beq_eq_false_iff_ne.mpr h1
            simp [hb]
        rcases ih with ⟨hall, heq⟩ | ⟨l1, tcm, l2, hsplit, hl1, hn, hr, heq⟩
        · apply Or.inl
          refine ⟨?_, ?_⟩
          · intro tc2 h2
            rcases List.mem_cons.mp h2 with h3 | h3
            · rw [h3]; exact hm
            · exact hall tc2 h3
          · simp only [attachResult, hcond, Bool.false_eq_true, if_false]
            rw [heq]
        · apply Or.inr
          refine ⟨tc :: l1, tcm, l2, by rw [hsplit]; rfl, ?_, hn, hr, ?_⟩
          · intro tc2 h2
            rcases List.mem_cons.mp h2 with h3 | h3
            · rw [h3]; exact hm
            · exact hl1 tc2 h3
          · simp only [attachResult, hcond, Bool.false_eq_true, if_false]
            rw [heq]
            rfl

/-- Closed witness for `C9_first_unresolved_match`: a concrete evaluation
with two unresolved entries for the same tool, plus the theorem applied at
that input. -/
theorem C9_first_unresolved_match_witness :
    attachResult "search" "r"
        [⟨"search", "a", none⟩, ⟨"search", "b", none⟩]
      = [⟨"search", "a", some "r"⟩, ⟨"search", "b", none⟩] ∧
    (((∀ tc ∈ ([⟨"search", "a", none⟩, ⟨"search", "b", none⟩] : List ToolCallData),
        ¬(tc.tool_name = "search" ∧ tc.result = none)) ∧
      attachResult "search" "r" [⟨"search", "a", none⟩, ⟨"search", "b", none⟩]
        = [⟨"search", "a", none⟩, ⟨"search", "b", none⟩]) ∨
     (∃ l1 tc l2,
        ([⟨"search", "a", none⟩, ⟨"search", "b", none⟩] : List ToolCallData)
          = l1 ++ tc :: l2 ∧
        (∀ tc2 ∈ l1, ¬(tc2.tool_name = "search" ∧ tc2.result = none)) ∧
        tc.tool_name = "search" ∧ tc.result = none ∧
        attachResult "search" "r" [⟨"search", "a", none⟩, ⟨"search", "b", none⟩]
          = l1 ++ { tc with result := some "r" } :: l2)) :=
  ⟨by decide, C9_first_unresolved_match "search" "r"
    [⟨"search", "a", none⟩, ⟨"search", "b", none⟩]⟩

/-- With no captured id, the error handler only pushes the `error` event. -/
theorem handleError_none (conv : Nat) (s : ProducerState) (m : String)
    (hid : s.assistant_message_id = none) :
    handleError conv s m = { s with queue := s.queue ++ [QueueEvent.error m] } := by
  unfold handleError
  simp only [hid]

/-- A non-content-bearing event advances the loop without touching the
store, the call log, the accumulated response or the (absent) id. -/
theorem step_quiet (conv : Nat) (s : ProducerState) (e : EngineEvent)
    (hC : isContentBearing e = false)
    (hfr : s.full_response = "") (hid : s.assistant_message_id = none) :
    ∃ s1, step conv s e = StepResult.next s1 ∧
      s1.full_response = "" ∧ s1.assistant_message_id = none ∧
      s1.store = s.store ∧ s1.calls = s.calls := by
  cases e with
  | modelStream name content =>
      have hq : (name == "ChatOpenAI" && content != "") = false := by
        simpa [isContentBearing] using hC
      refine ⟨s, ?_, hfr, hid, rfl, rfl⟩
      simp only [step, hq, Bool.false_eq_true, if_false]
  | toolStart name input =>
      exact ⟨_, rfl, hfr, hid, rfl, rfl⟩
  | toolEnd name output =>
      refine ⟨{ s with
          tool_calls_data := attachResult name (output.take 500) s.tool_calls_data,
          queue := s.queue ++ [QueueEvent.tool_result name (output.take 500)] },
        ?_, hfr, hid, rfl, rfl⟩
      simp only [step, hid]
  | chainEnd name output =>
      by_cases hn : (name == "AgentExecutor") = true
      · rcases houtput : output with _ | t
        · refine ⟨s, ?_, hfr, hid, rfl, rfl⟩
          simp only [step, hn, if_true]
        · have ht : (t != "") = false := by
            rw [houtput] at hC
            simpa [isContentBearing, hn] using hC
          refine ⟨s, ?_, hfr, hid, rfl, rfl⟩
          simp only [step, hn, if_true, ht, Bool.false_eq_true, if_false]
      · have hnf : (name == "AgentExecutor") = false := by
          simpa using hn
        refine ⟨s, ?_, hfr, hid, rfl, rfl⟩
        simp only [step, hnf, Bool.false_eq_true, if_false]

/-- Over a stream with no content-bearing event, the Producer leaves the
store and the call log untouched; an engine failure at the end adds exactly
one `error` event to the queue of the corresponding clean run. -/
theorem runProducer_quiet (conv : Nat) :
    ∀ (evs : List EngineEvent) (s : ProducerState),
      (∀ e ∈ evs, isContentBearing e = false) →
      s.full_response = "" → s.assistant_message_id = none →
      (runProducer conv s evs none).full_response = "" ∧
      (runProducer conv s evs none).assistant_message_id = none ∧
      (runProducer conv s evs none).store = s.store ∧
      (runProducer conv s evs none).calls = s.calls ∧
      ∀ m, runProducer conv s evs (some m)
        = { runProducer conv s evs none with
            queue := (runProducer conv s evs none).queue ++ [QueueEvent.error m] } := by
  intro evs
  induction evs with
  | nil =>
      intro s hC hfr hid
      refine ⟨hfr, hid, rfl, rfl, ?_⟩
      intro m
      rw [runProducer_nil_some, runProducer_nil_none]
      exact handleError_none conv s m hid
  | cons e rest ih =>
      intro s hC hfr hid
      obtain ⟨s1, hstep, h1, h2, h3, h4⟩ :=
        step_quiet conv s e (hC e (List.mem_cons_self e rest)) hfr hid
      have hrest : ∀ x ∈ rest, isContentBearing x = false :=
        fun x hx => hC x (List.mem_cons_of_mem e hx)
      obtain ⟨g1, g2, g3, g4, g5⟩ := ih s1 hrest h1 h2
      rw [runProducer_cons, hstep]
      refine ⟨g1, g2, g3.trans h3, g4.trans h4, ?_⟩
      intro m
      rw [runProducer_cons, hstep]
      exact g5 m

/-- C10: when the engine fails before any content-bearing event, the error
path performs no gateway call at all — in particular it persists no partial
assistant content (the partial save requires both non-empty accumulated
content and a captured id) — and pushes exactly the `error` event. -/
theorem C10_no_partial_save_before_content (conv : Nat) (s0 : Store)
    (evs : List EngineEvent) (msg : String)
    (h : ∀ e ∈ evs, isContentBearing e = false) :
    (runProducer conv (initState s0) evs (some msg)).store = s0 ∧
    (runProducer conv (initState s0) evs (some msg)).calls = [] ∧
    (runProducer conv (initState s0) evs (some msg)).queue
      = (runProducer conv (initState s0) evs none).queue ++ [QueueEvent.error msg] := by
  obtain ⟨h1, h2, h3, h4, h5⟩ := runProducer_quiet conv evs (initState s0) h rfl rfl
  refine ⟨?_, ?_, ?_⟩
  · rw [h5 msg]
    exact h3
  · rw [h5 msg]
    exact h4
  · rw [h5 msg]

/-- Closed witness for `C10_no_partial_save_before_content`: an engine
failure right after a tool round-trip, before any token streamed. -/
theorem C10_no_partial_save_before_content_witness :
    (∀ e ∈ [EngineEvent.toolStart "search" "qq", EngineEvent.toolEnd "search" "rr"],
      isContentBearing e = false) ∧
    (runProducer 0 (initState ⟨[], [], [], 5⟩)
        [EngineEvent.toolStart "search" "qq", EngineEvent.toolEnd "search" "rr"]
        (some "boom")).store = ⟨[], [], [], 5⟩ ∧
    (runProducer 0 (initState ⟨[], [], [], 5⟩)
        [EngineEvent.toolStart "search" "qq", EngineEvent.toolEnd "search" "rr"]
        (some "boom")).calls = [] :=
  ⟨by decide,
   (C10_no_partial_save_before_content 0 ⟨[], [], [], 5⟩
      [EngineEvent.toolStart "search" "qq", EngineEvent.toolEnd "search" "rr"]
      "boom" (by decide)).1,
   (C10_no_partial_save_before_content 0 ⟨[], [], [], 5⟩
      [EngineEvent.toolStart "search" "qq", EngineEvent.toolEnd "search" "rr"]
      "boom" (by decide)).2.1⟩

/-- A relayed event's frame is terminal exactly when the event is. -/
theorem Frame_ev_isTerminal (e : QueueEvent) :
    (Frame.ev e).isTerminal = e.isTerminal := rfl

/-- In the frames formed by the consumed queue items plus the final
completion write, everything after the first terminal frame is either
nothing or the single final `done` frame. -/
theorem afterFirstTerminal_take (q : List QueueEvent) :
    afterFirstTerminal ((takeToTerminal q).map Frame.ev ++ [Frame.ev QueueEvent.done]) = [] ∨
    afterFirstTerminal ((takeToTerminal q).map Frame.ev ++ [Frame.ev QueueEvent.done])
      = [Frame.ev QueueEvent.done] := by
  induction q with
  | nil => exact Or.inl rfl
  | cons e rest ih =>
      unfold takeToTerminal
      by_cases he : e.isTerminal = true
      · rw [if_pos he]
        right
        simp [afterFirstTerminal, Frame_ev_isTerminal, he]
      · rw [if_neg he]
        simp only [Bool.not_eq_true] at he
        simp only [List.map_cons, List.cons_append, afterFirstTerminal,
          Frame_ev_isTerminal, he, Bool.false_eq_true, if_false]
        exact ih

/-- C7 amended: in the frame sequence written by the Delivery Loop, the
first terminal frame is followed by at most one further frame, namely the
single unconditional final `done` write — and nothing after that. -/
theorem C7_at_most_one_trailing_done (conv : Nat) (q : List QueueEvent) :
    afterFirstTerminal (deliveredFrames conv q) = [] ∨
    afterFirstTerminal (deliveredFrames conv q) = [Frame.ev QueueEvent.done] := by
  unfold deliveredFrames
  simp only [afterFirstTerminal, Frame.isTerminal, Bool.false_eq_true, if_false]
  exact afterFirstTerminal_take q

/-- C7 counterexample: when the Producer pushes an `error` event, the
Delivery Loop forwards the `error` frame and then still writes the final
`done` frame (chat_service.py line 339) — a further frame follows a
terminal frame, so the stream does not end at the first terminal frame. -/
theorem C7_counterexample_frame_after_terminal :
    deliveredFrames 7 [QueueEvent.error "boom"]
      = [Frame.conversation_id 7, Frame.ev (QueueEvent.error "boom"),
         Frame.ev QueueEvent.done] ∧
    afterFirstTerminal (deliveredFrames 7 [QueueEvent.error "boom"])
      = [Frame.ev QueueEvent.done] ∧
    ([Frame.ev QueueEvent.done] : List Frame) ≠ [] := by
  refine ⟨rfl, rfl, by decide⟩

/-- C1 (code bug): a normally completing turn — two streamed deltas, then
the AgentExecutor final output "Hello world!" and a `done` event — leaves
the store's assistant content at the FIRST fragment "Hello": the terminal
write (chat_service.py line 228) passes `message_id=` to a `save_message`
that has no such parameter, so the `TypeError` is caught and logged (line
259) and the authoritative final text is never persisted. -/
theorem C1_final_content_not_persisted :
    ((streamChatTurn ⟨[], [], [], 0⟩ "hi" none
        [EngineEvent.modelStream "ChatOpenAI" "Hello",
         EngineEvent.modelStream "ChatOpenAI" " world!",
         EngineEvent.chainEnd "AgentExecutor" (some "Hello world!")] none).1.queue.getLast?
      = some QueueEvent.done) ∧
    ((assistantMessages (streamChatTurn ⟨[], [], [], 0⟩ "hi" none
        [EngineEvent.modelStream "ChatOpenAI" "Hello",
         EngineEvent.modelStream "ChatOpenAI" " world!",
         EngineEvent.chainEnd "AgentExecutor" (some "Hello world!")] none).1.store).map
        Message.content = ["Hello"]) ∧
    ((streamChatTurn ⟨[], [], [], 0⟩ "hi" none
        [EngineEvent.modelStream "ChatOpenAI" "Hello",
         EngineEvent.modelStream "ChatOpenAI" " world!",
         EngineEvent.chainEnd "AgentExecutor" (some "Hello world!")] none).1.calls.getLast?
      = some (GatewayCall.saveMessageWithId 0 "assistant" "Hello world!" 2)) ∧
    ("Hello" : String) ≠ "Hello world!" :=
  ⟨rfl, rfl, rfl, by decide⟩

/-- C2 (code bug): `save_message` has no update path at all.  Called while
the caller already holds the id (1) of an existing assistant message, it
does not update that row: it inserts a second row with a fresh id (2) and
returns the fresh id, leaving the old row's content unchanged.  (Calling it
with the `message_id=` keyword, as chat_service.py lines 136, 228 and 279
do, raises `TypeError` because the parameter does not exist.) -/
theorem C2_save_message_always_inserts :
    (save_message ⟨[0], [⟨1, 0, "assistant", "old"⟩], [], 2⟩ 0 "assistant" "new").2 = 2 ∧
    (2 : Nat) ≠ 1 ∧
    (save_message ⟨[0], [⟨1, 0, "assistant", "old"⟩], [], 2⟩ 0 "assistant" "new").1.messages
      = [⟨1, 0, "assistant", "old"⟩, ⟨2, 0, "assistant", "new"⟩] :=
  ⟨rfl, by decide, rfl⟩

/-- C5 (code bug): the Producer indeed runs the engine stream to completion
independently of the client (`runProducer` takes no client input, and the
`done` event is pushed), but the store does NOT eventually hold the full
final assistant content: the terminal write fails with `TypeError`, so the
store keeps only the first fragment "Full " instead of
"Full final answer.". -/
theorem C5_producer_completes_but_store_stale :
    ((streamChatTurn ⟨[], [], [], 0⟩ "question" none
        [EngineEvent.modelStream "ChatOpenAI" "Full ",
         EngineEvent.modelStream "ChatOpenAI" "final answer.",
         EngineEvent.chainEnd "AgentExecutor" (some "Full final answer.")] none).1.queue
      = [QueueEvent.content_delta "Full ", QueueEvent.content_delta "final answer.",
         QueueEvent.done]) ∧
    ((assistantMessages (streamChatTurn ⟨[], [], [], 0⟩ "question" none
        [EngineEvent.modelStream "ChatOpenAI" "Full ",
         EngineEvent.modelStream "ChatOpenAI" "final answer.",
         EngineEvent.chainEnd "AgentExecutor" (some "Full final answer.")] none).1.store).map
        Message.content = ["Full "]) ∧
    ("Full " : String) ≠ "Full final answer." :=
  ⟨rfl, rfl, by decide⟩

/-- C6 (code bug): on an engine failure after partial content "The " and
"M4 chip...", the error path does attempt the partial save best-effort (the
attempted call is the last gateway call) and pushes the `error` event, but
the attempted save passes `message_id=` and fails with `TypeError`, so the
store's assistant content is the stale first fragment "The " — neither the
accumulated partial text nor any more recent checkpoint of it. -/
theorem C6_partial_content_not_persisted_on_failure :
    ((streamChatTurn ⟨[], [], [], 0⟩ "q" none
        [EngineEvent.modelStream "ChatOpenAI" "The ",
         EngineEvent.modelStream "ChatOpenAI" "M4 chip..."] (some "boom")).1.queue.getLast?
      = some (QueueEvent.error "boom")) ∧
    ((streamChatTurn ⟨[], [], [], 0⟩ "q" none
        [EngineEvent.modelStream "ChatOpenAI" "The ",
         EngineEvent.modelStream "ChatOpenAI" "M4 chip..."] (some "boom")).1.full_response
      = "The M4 chip...") ∧
    ((streamChatTurn ⟨[], [], [], 0⟩ "q" none
        [EngineEvent.modelStream "ChatOpenAI" "The ",
         EngineEvent.modelStream "ChatOpenAI" "M4 chip..."] (some "boom")).1.calls.getLast?
      = some (GatewayCall.saveMessageWithId 0 "assistant" "The M4 chip..." 2)) ∧
    ((assistantMessages (streamChatTurn ⟨[], [], [], 0⟩ "q" none
        [EngineEvent.modelStream "ChatOpenAI" "The ",
         EngineEvent.modelStream "ChatOpenAI" "M4 chip..."] (some "boom")).1.store).map
        Message.content = ["The "]) ∧
    ("The " : String) ≠ "The M4 chip..." :=
  ⟨rfl, rfl, rfl, rfl, by decide⟩
